import Mathlib

/-!
Verification of the spreading-colors cellular simulation (src/src/main.rs).

The program keeps a 2D grid of cells: a boolean liveness buffer and an RGB
color buffer. Live cells probabilistically spread to a randomly chosen dead
Moore neighbor, giving the child a randomly perturbed copy of the parent
color. The driver sweeps all interior coordinates until a full sweep sees no
dead cell.

Shallow embedding conventions:
 - u8 values are Nat with explicit saturation at 0 and 255; f64 draws in
   [0,1) and the spread chance are Rat.
 - the Rust ThreadRng is an explicit oracle: one stream per kind of draw,
   each a total function from Nat together with a position that advances on
   every draw, so that consumption of randomness is observable.
 - a Rust panic (sampling from an empty range, as gen_range does when
   lo >= hi) is modelled by Option: none means the program panicked.
 - the Array2 buffers are total functions from coordinates; all accesses the
   program performs are in bounds, where the two models agree.
-/

/-- The random generator state: one stream per kind of draw plus its
position. Mirrors the single stateful ThreadRng threaded through the Rust
code, with consumption made observable. -/
structure Rng where
  ints : Nat → Nat
  floats : Nat → Rat
  bools : Nat → Bool
  bytes : Nat → Nat
  intPos : Nat
  floatPos : Nat
  boolPos : Nat
  bytePos : Nat

/-- Models rng.gen_range(lo..hi) on integers: panics (none) when the range
is empty, otherwise returns a value in [lo, hi) and advances the stream. -/
def genRangeNat (lo hi : Nat) (rng : Rng) : Option (Nat × Rng) :=
  if lo < hi then
    some (lo + rng.ints rng.intPos % (hi - lo), { rng with intPos := rng.intPos + 1 })
  else none

/-- Models rng.gen::<bool>(). -/
def genBool (rng : Rng) : Bool × Rng :=
  (rng.bools rng.boolPos, { rng with boolPos := rng.boolPos + 1 })

/-- Models rng.gen::<u8>(): a byte in [0, 255]. -/
def genByte (rng : Rng) : Nat × Rng :=
  (rng.bytes rng.bytePos % 256, { rng with bytePos := rng.bytePos + 1 })

/-- The value of the next probability draw of an rng: the head of the float
stream, read as 0 when it lies outside [0, 1). -/
def floatVal (rng : Rng) : Rat :=
  if 0 ≤ rng.floats rng.floatPos ∧ rng.floats rng.floatPos < 1 then
    rng.floats rng.floatPos
  else 0

/-- Models rng.gen_range(0.0..1.0): the draw always lies in [0, 1), and the
float stream advances. -/
def genFloat01 (rng : Rng) : Rat × Rng :=
  (floatVal rng, { rng with floatPos := rng.floatPos + 1 })

/-- An RGB triple; each channel is a u8 held as a Nat in [0, 255]. -/
structure RgbColor where
  red : Nat
  green : Nat
  blue : Nat
deriving DecidableEq, Repr

namespace RgbColor

/-- Models RgbColor::random: three independent uniform bytes. -/
def random (rng : Rng) : RgbColor × Rng :=
  let (r, rng) := genByte rng
  let (g, rng) := genByte rng
  let (b, rng) := genByte rng
  ({ red := r, green := g, blue := b }, rng)

/-- Models RgbColor::shift_hue: draws r from gen_range(0..shift) (a panic,
hence none, when shift = 0), then a fair coin; heads saturating-subtracts r,
tails saturating-adds r. Nat subtraction is the saturating u8 subtraction;
saturating u8 addition is min 255. -/
def shift_hue (hue shift : Nat) (rng : Rng) : Option (Nat × Rng) := do
  let (r, rng) ← genRangeNat 0 shift rng
  let (b, rng) := genBool rng
  if b then pure (hue - r, rng)
  else pure (min 255 (hue + r), rng)

/-- Models RgbColor::shift_color: shifts red, green, blue in order with
fresh draws. -/
def shift_color (c : RgbColor) (shift : Nat) (rng : Rng) : Option (RgbColor × Rng) := do
  let (r, rng) ← shift_hue c.red shift rng
  let (g, rng) ← shift_hue c.green shift rng
  let (b, rng) ← shift_hue c.blue shift rng
  pure ({ red := r, green := g, blue := b }, rng)

end RgbColor

/-- Pointwise update of a 2D buffer at one coordinate, the effect of the
Array2 index assignment buf[[y, x]] = v. -/
def update2 {α : Type} (f : Nat → Nat → α) (y x : Nat) (v : α) : Nat → Nat → α :=
  fun j i => if j = y ∧ i = x then v else f j i

/-- The grid: co-indexed liveness and color buffers plus the immutable
simulation parameters. The display-only fields of the Rust struct
(frametime, cell_char) carry no simulation content and are omitted. -/
structure Grid where
  alive_states : Nat → Nat → Bool
  color_states : Nat → Nat → RgbColor
  width : Nat
  height : Nat
  colorshift : Nat
  spread_chance : Rat

namespace Grid

/-- Models Grid::get_color. -/
def get_color (g : Grid) (y x : Nat) : RgbColor := g.color_states y x

/-- Models Grid::set_color. -/
def set_color (g : Grid) (y x : Nat) (c : RgbColor) : Grid :=
  { g with color_states := update2 g.color_states y x c }

/-- Models Grid::make_child: shifts the parent color at (y, x) by colorshift
(panicking, hence none, when colorshift = 0), then sets liveness true and
the shifted color at (new_y, new_x). -/
def make_child (g : Grid) (y x new_y new_x : Nat) (rng : Rng) : Option (Grid × Rng) := do
  let current_color := g.get_color y x
  let (new_color, rng) ← current_color.shift_color g.colorshift rng
  let g := { g with alive_states := update2 g.alive_states new_y new_x true }
  pure (g.set_color new_y new_x new_color, rng)

/-- Models Grid::spawn_orphan_at_random_position: draws x in 1..width-1,
then y in 1..height-1, then a random color, and places a live cell there. -/
def spawn_orphan_at_random_position (g : Grid) (rng : Rng) : Option (Grid × Rng) := do
  let (x, rng) ← genRangeNat 1 (g.width - 1) rng
  let (y, rng) ← genRangeNat 1 (g.height - 1) rng
  let g := { g with alive_states := update2 g.alive_states y x true }
  let (color, rng) := RgbColor.random rng
  pure (g.set_color y x color, rng)

end Grid

/-- The eight Moore-neighborhood index pairs listed in
Grid::spread_to_random_dead_nbor, in source order. Nat subtraction mirrors
usize arithmetic, which never underflows on the interior coordinates the
program uses. -/
def mooreNbors (y x : Nat) : List (Nat × Nat) :=
  [(y - 1, x - 1), (y - 1, x), (y - 1, x + 1),
   (y, x - 1), (y, x + 1),
   (y + 1, x - 1), (y + 1, x), (y + 1, x + 1)]

/-- The candidate list of the spread rule: the Moore neighbors whose
liveness is false, exactly the filter in Grid::spread_to_random_dead_nbor. -/
def Grid.dead_nbors (g : Grid) (y x : Nat) : List (Nat × Nat) :=
  (mooreNbors y x).filter (fun p => ! g.alive_states p.1 p.2)

/-- Models IteratorRandom::choose: none on an empty list, otherwise a
uniformly chosen element, consuming one integer draw. -/
def chooseFromList {α : Type} (l : List α) (rng : Rng) : Option α × Rng :=
  if l.isEmpty then (none, rng)
  else (l[rng.ints rng.intPos % l.length]?, { rng with intPos := rng.intPos + 1 })

/-- Models Grid::spread_to_random_dead_nbor: choose a dead Moore neighbor
(if any), then draw in [0,1); when the draw is below spread_chance, commit
the spread through make_child, else leave the grid unchanged. -/
def Grid.spread_to_random_dead_nbor (g : Grid) (y x : Nat) (rng : Rng) : Option (Grid × Rng) :=
  match chooseFromList (g.dead_nbors y x) rng with
  | (some nbor, rng) =>
      let (p, rng) := genFloat01 rng
      if p < g.spread_chance then g.make_child y x nbor.1 nbor.2 rng
      else some (g, rng)
  | (none, rng) => some (g, rng)

/-- The grid built in main: both buffers filled with the constant dead /
zero-color element, as Array2::from_elem does. -/
def Grid.new (width height colorshift : Nat) (spread_chance : Rat) : Grid :=
  { alive_states := fun _ _ => false
    color_states := fun _ _ => { red := 0, green := 0, blue := 0 }
    width := width
    height := height
    colorshift := colorshift
    spread_chance := spread_chance }

/-- The interior coordinate list built in main: row-major pairs (y, x) with
y in 1..height-1 and x in 1..width-1. -/
def yxCoordinatePairs (width height : Nat) : List (Nat × Nat) :=
  (List.range' 1 (height - 1 - 1)).flatMap
    (fun y => (List.range' 1 (width - 1 - 1)).map (fun x => (y, x)))

/-- One iteration of the sweep body of simulation_in_background: an alive
cell makes a spread attempt; a dead cell sets the seen_dead_cell flag. -/
def sweepStep (g : Grid) (rng : Rng) (seen : Bool) (p : Nat × Nat) :
    Option (Grid × Rng × Bool) :=
  if g.alive_states p.1 p.2 then do
    let (g, rng) ← g.spread_to_random_dead_nbor p.1 p.2 rng
    pure (g, rng, seen)
  else some (g, rng, true)

/-- One full sweep over the coordinate list, threading the grid, the rng and
the seen_dead_cell flag (initially false). -/
def sweep (pairs : List (Nat × Nat)) (g : Grid) (rng : Rng) :
    Option (Grid × Rng × Bool) :=
  pairs.foldlM (fun s q => sweepStep s.1 s.2.1 s.2.2 q) (g, rng, false)

/-- Outcome of running the driver loop for a bounded number of sweeps. -/
inductive RunResult where
  | done (g : Grid) (rng : Rng)
  | running (g : Grid) (rng : Rng)
  | panicked
deriving Inhabited

/-- True exactly on the done outcome. -/
def RunResult.isDone : RunResult → Bool
  | .done _ _ => true
  | _ => false

/-- Models the loop of simulation_in_background, indexed by the number of
sweeps still allowed: each round runs one full sweep; if the sweep saw no
dead cell the grid is returned (done), otherwise the loop repeats; running
means the loop had not returned within the allowed sweeps. -/
def simulation_in_background (pairs : List (Nat × Nat)) :
    Nat → Grid → Rng → RunResult
  | 0, g, rng => .running g rng
  | fuel + 1, g, rng =>
    match sweep pairs g rng with
    | none => .panicked
    | some (g, rng, seen) =>
      if seen then simulation_in_background pairs fuel g rng
      else .done g rng

/-- A step of the simulation surface: an orphan spawn or a spread attempt
at a coordinate, the two mutating operations of the grid. -/
inductive SimOp where
  | spawn : SimOp
  | spread (y x : Nat) : SimOp

/-- Apply one operation to a grid and rng pair. -/
def applyOp (s : Grid × Rng) : SimOp → Option (Grid × Rng)
  | .spawn => s.1.spawn_orphan_at_random_position s.2
  | .spread y x => s.1.spread_to_random_dead_nbor y x s.2

/-- Apply a sequence of operations from left to right. -/
def applyOps (ops : List SimOp) (g : Grid) (rng : Rng) : Option (Grid × Rng) :=
  ops.foldlM applyOp (g, rng)

/-- Pointwise order on liveness buffers: every cell alive in the first grid
is alive in the second. -/
def Grid.aliveLe (g g' : Grid) : Prop :=
  ∀ j i, g.alive_states j i = true → g'.alive_states j i = true

/-- Distance between two naturals. -/
def natDist (a b : Nat) : Nat := max (a - b) (b - a)

/-- Chebyshev distance between two coordinates. -/
def chebDist (p q : Nat × Nat) : Nat := max (natDist p.1 q.1) (natDist p.2 q.2)

/-- A coordinate is interior for a width-by-height grid when both indices
lie strictly inside the border ring. -/
def isInterior (width height : Nat) (p : Nat × Nat) : Prop :=
  1 ≤ p.1 ∧ p.1 ≤ height - 2 ∧ 1 ≤ p.2 ∧ p.2 ≤ width - 2

instance (width height : Nat) (p : Nat × Nat) :
    Decidable (isInterior width height p) := by
  unfold isInterior; infer_instance

/-- Every coordinate of a width-by-height grid, row major. -/
def allCoords (width height : Nat) : List (Nat × Nat) :=
  (List.range height).flatMap (fun y => (List.range width).map (fun x => (y, x)))

/-- Number of alive cells of the grid, counted over the full buffer. -/
def aliveCount (width height : Nat) (g : Grid) : Nat :=
  (allCoords width height).countP (fun p => g.alive_states p.1 p.2)

/-- A deterministic rng whose streams are all zero; its integer draws pick
the first candidate everywhere and its float draws always commit. -/
def rngZero : Rng :=
  { ints := fun _ => 0
    floats := fun _ => 0
    bools := fun _ => false
    bytes := fun _ => 0
    intPos := 0
    floatPos := 0
    boolPos := 0
    bytePos := 0 }

/-- The rational one half, as an explicit reduced fraction. -/
def ratHalf : Rat := ⟨1, 2, by norm_num, Nat.coprime_one_left 2⟩

/-- The rational nine tenths, as an explicit reduced fraction. -/
def ratNineTenths : Rat := ⟨9, 10, by norm_num, by norm_num⟩

/-- An rng whose float draws all return 9/10, rejecting every probability
check against a spread chance of at most 9/10. -/
def rngRej : Rng :=
  { rngZero with floats := fun _ => ratNineTenths }

/-- A 4-by-4 all-dead grid with colorshift 4 and spread chance 1/2. -/
def gridW : Grid := Grid.new 4 4 4 ratHalf

/-- A 4-by-4 grid whose cells are all alive. -/
def gridAllAlive : Grid :=
  { alive_states := fun _ _ => true
    color_states := fun _ _ => { red := 0, green := 0, blue := 0 }
    width := 4
    height := 4
    colorshift := 4
    spread_chance := 1 / 2 }

/-- The grid produced by make_child on gridW at target (0, 0) under
rngZero: the target becomes alive with the unshifted zero color. -/
def gridW_child : Grid :=
  { gridW with
    alive_states := update2 gridW.alive_states 0 0 true
    color_states := update2 gridW.color_states 0 0 { red := 0, green := 0, blue := 0 } }

/-- A 4-by-4 grid with spread chance 0 and one seeded live cell at the
interior coordinate (1, 1). -/
def gridSeeded0 : Grid :=
  { Grid.new 4 4 4 0 with
    alive_states := update2 (Grid.new 4 4 4 0).alive_states 1 1 true
    color_states :=
      update2 (Grid.new 4 4 4 0).color_states 1 1 { red := 200, green := 100, blue := 50 } }

/-- One step from u toward v: up if below, down if above, fixed if equal. -/
def stepToward (u v : Nat) : Nat :=
  if u < v then u + 1 else if v < u then u - 1 else u

/-- The 4-by-4 grid with spread chance 1/2 and one seeded live cell at the
interior coordinate (1, 1). -/
def gridC5 : Grid :=
  { gridW with
    alive_states := update2 gridW.alive_states 1 1 true
    color_states :=
      update2 gridW.color_states 1 1 { red := 200, green := 100, blue := 50 } }

/-- A 3-by-3 grid with spread chance 1, colorshift 4, and one seeded live
cell at its only interior coordinate (1, 1). -/
def gridC5W : Grid :=
  { Grid.new 3 3 4 1 with
    alive_states := update2 (Grid.new 3 3 4 1).alive_states 1 1 true
    color_states :=
      update2 (Grid.new 3 3 4 1).color_states 1 1 { red := 200, green := 100, blue := 50 } }

-- ===== Helper lemmas =====

lemma make_child_eq (g : Grid) (y x ny nx : Nat) (rng : Rng) :
    g.make_child y x ny nx rng =
      ((g.get_color y x).shift_color g.colorshift rng).map
        (fun s => ({ g with
                     alive_states := update2 g.alive_states ny nx true
                     color_states := update2 g.color_states ny nx s.1 }, s.2)) := by
  unfold Grid.make_child
  cases hsc : (g.get_color y x).shift_color g.colorshift rng with
  | none => simp [hsc]
  | some s => cases s; simp [hsc, Grid.set_color]

lemma spawn_eq (g : Grid) (rng : Rng) :
    g.spawn_orphan_at_random_position rng =
      (genRangeNat 1 (g.width - 1) rng).bind (fun sx =>
        (genRangeNat 1 (g.height - 1) sx.2).map (fun sy =>
          ({ g with
             alive_states := update2 g.alive_states sy.1 sx.1 true
             color_states := update2 g.color_states sy.1 sx.1 (RgbColor.random sy.2).1 },
           (RgbColor.random sy.2).2))) := by
  unfold Grid.spawn_orphan_at_random_position
  cases hx : genRangeNat 1 (g.width - 1) rng with
  | none => simp [hx]
  | some sx =>
    cases sx with
    | mk xv xr =>
      cases hy : genRangeNat 1 (g.height - 1) xr with
      | none => simp [hx, hy]
      | some sy => cases sy; simp [hx, hy, Grid.set_color, RgbColor.random]

lemma aliveLe_refl (g : Grid) : g.aliveLe g := fun _ _ h => h

lemma aliveLe_trans {a b c : Grid} (h1 : a.aliveLe b) (h2 : b.aliveLe c) :
    a.aliveLe c := fun j i h => h2 j i (h1 j i h)

lemma aliveLe_update2 (g : Grid) (f : Nat → Nat → RgbColor) (y x : Nat) :
    g.aliveLe { g with
                alive_states := update2 g.alive_states y x true
                color_states := f } := by
  intro j i h
  simp only [update2]
  split
  · rfl
  · exact h

lemma aliveLe_make_child {g g2 : Grid} {y x ny nx : Nat} {rng rng2 : Rng}
    (h : g.make_child y x ny nx rng = some (g2, rng2)) : g.aliveLe g2 := by
  rw [make_child_eq] at h
  cases hsc : (g.get_color y x).shift_color g.colorshift rng with
  | none => simp [hsc] at h
  | some s =>
    simp only [hsc, Option.map_some', Option.some.injEq, Prod.mk.injEq] at h
    obtain ⟨hg, -⟩ := h
    subst hg
    exact aliveLe_update2 g _ ny nx

lemma aliveLe_spread {g g2 : Grid} {y x : Nat} {rng rng2 : Rng}
    (h : g.spread_to_random_dead_nbor y x rng = some (g2, rng2)) : g.aliveLe g2 := by
  unfold Grid.spread_to_random_dead_nbor at h
  cases hch : chooseFromList (g.dead_nbors y x) rng with
  | mk cho rng1 =>
    rw [hch] at h
    cases cho with
    | none =>
      simp only [Option.some.injEq, Prod.mk.injEq] at h
      obtain ⟨hg, _⟩ := h
      subst hg; exact aliveLe_refl g
    | some nbor =>
      simp only at h
      split at h
      · exact aliveLe_make_child h
      · simp only [Option.some.injEq, Prod.mk.injEq] at h
        obtain ⟨hg, _⟩ := h
        subst hg; exact aliveLe_refl g

lemma aliveLe_spawn {g g2 : Grid} {rng rng2 : Rng}
    (h : g.spawn_orphan_at_random_position rng = some (g2, rng2)) : g.aliveLe g2 := by
  rw [spawn_eq] at h
  cases hx : genRangeNat 1 (g.width - 1) rng with
  | none => simp [hx] at h
  | some sx =>
    cases hy : genRangeNat 1 (g.height - 1) sx.2 with
    | none => simp [hx, hy] at h
    | some sy =>
      simp only [hx, hy, Option.some_bind, Option.map_some', Option.some.injEq,
        Prod.mk.injEq] at h
      obtain ⟨hg, -⟩ := h
      subst hg
      exact aliveLe_update2 g _ sy.1 sx.1

lemma aliveLe_applyOp {g g2 : Grid} {rng rng2 : Rng} {op : SimOp}
    (h : applyOp (g, rng) op = some (g2, rng2)) : g.aliveLe g2 := by
  cases op with
  | spawn => exact aliveLe_spawn h
  | spread y x => exact aliveLe_spread h

lemma aliveLe_applyOps {ops : List SimOp} :
    ∀ {g g2 : Grid} {rng rng2 : Rng},
      applyOps ops g rng = some (g2, rng2) → g.aliveLe g2 := by
  induction ops with
  | nil =>
    intro g g2 rng rng2 h
    simp only [applyOps, List.foldlM_nil, pure, Option.some.injEq, Prod.mk.injEq] at h
    obtain ⟨hg, _⟩ := h
    subst hg; exact aliveLe_refl g
  | cons op ops ih =>
    intro g g2 rng rng2 h
    simp only [applyOps, List.foldlM_cons] at h
    cases h1 : applyOp (g, rng) op with
    | none => rw [h1] at h; simp at h
    | some s1 =>
      rw [h1] at h
      simp only [Option.bind_eq_bind, Option.some_bind] at h
      cases s1 with
      | mk g1 rng1 =>
        exact aliveLe_trans (aliveLe_applyOp h1) (ih h)

-- ===== Claim theorems: first batch =====

/-- C2: the claim states that the channel-shift operation called with shift
maximum 0 returns the value unchanged for every channel value and random
source. On the code this fails: shift_hue calls rng.gen_range(0..shift)
unguarded, and with shift = 0 the range 0..0 is empty, so the call panics
(none) instead of returning the value. -/
theorem c2_shift_hue_zero_panics :
    ∀ (hue : Nat) (rng : Rng), RgbColor.shift_hue hue 0 rng = none := by
  intro hue rng
  simp [RgbColor.shift_hue, genRangeNat]

/-- C6: liveness is monotonic: across any sequence of spread attempts and
orphan spawns that completes without panicking, no cell whose liveness is
true ever has its liveness set to false. -/
theorem c6_liveness_monotonic (ops : List SimOp) (g g' : Grid) (rng rng' : Rng)
    (h : applyOps ops g rng = some (g', rng')) :
    ∀ y x, g.alive_states y x = true → g'.alive_states y x = true :=
  aliveLe_applyOps h

/-- Witness for C6 on a concrete run: one spread attempt on the all-alive
grid leaves it unchanged, and the cell (2, 2), alive before, is alive
after. -/
theorem c6_witness :
    applyOps [SimOp.spread 1 1] gridAllAlive rngZero = some (gridAllAlive, rngZero) ∧
      gridAllAlive.alive_states 2 2 = true :=
  ⟨rfl, c6_liveness_monotonic [SimOp.spread 1 1] gridAllAlive gridAllAlive rngZero rngZero
    rfl 2 2 rfl⟩

/-- C7: for an interior coordinate (both indices at least 1), every element
of the candidate list dead_nbors is one of the eight Moore neighbors, lies
at Chebyshev distance exactly 1, differs from the center, and is currently
dead. -/
theorem c7_dead_nbors_sound (g : Grid) (y x : Nat) (hy : 1 ≤ y) (hx : 1 ≤ x) :
    ∀ p ∈ g.dead_nbors y x,
      p ∈ mooreNbors y x ∧ chebDist p (y, x) = 1 ∧ p ≠ (y, x) ∧
        g.alive_states p.1 p.2 = false := by
  intro p hp
  rw [Grid.dead_nbors, List.mem_filter] at hp
  obtain ⟨hmem, hdead⟩ := hp
  have hd : g.alive_states p.1 p.2 = false := by simpa using hdead
  refine ⟨hmem, ?_, ?_, hd⟩ <;>
  · simp only [mooreNbors, List.mem_cons, List.not_mem_nil, or_false] at hmem
    rcases hmem with h | h | h | h | h | h | h | h <;> subst h <;>
      simp [chebDist, natDist, Prod.ext_iff] <;> omega

/-- Witness for C7: the dead-neighbor list of the fresh 4-by-4 grid at the
interior coordinate (1, 1). -/
theorem c7_witness :
    ((1 ≤ 1 ∧ 1 ≤ 1) ∧
      ∀ p ∈ gridW.dead_nbors 1 1,
        p ∈ mooreNbors 1 1 ∧ chebDist p (1, 1) = 1 ∧ p ≠ (1, 1) ∧
          gridW.alive_states p.1 p.2 = false) :=
  ⟨⟨le_refl 1, le_refl 1⟩, c7_dead_nbors_sound gridW 1 1 (le_refl 1) (le_refl 1)⟩

/-- C9: for dimensions at least 3, the constructed grid has every cell dead
and every color equal to the zero triple. -/
theorem c9_new_grid_all_dead (width height colorshift : Nat) (spread_chance : Rat)
    (_hw : 3 ≤ width) (_hh : 3 ≤ height) :
    ∀ y x, (Grid.new width height colorshift spread_chance).alive_states y x = false ∧
      (Grid.new width height colorshift spread_chance).color_states y x =
        { red := 0, green := 0, blue := 0 } :=
  fun _ _ => ⟨rfl, rfl⟩

/-- Witness for C9 at dimensions 3 by 3. -/
theorem c9_witness :
    ((3 ≤ 3 ∧ 3 ≤ 3) ∧
      ∀ y x, (Grid.new 3 3 4 (1 / 2)).alive_states y x = false ∧
        (Grid.new 3 3 4 (1 / 2)).color_states y x = { red := 0, green := 0, blue := 0 }) :=
  ⟨⟨le_refl 3, le_refl 3⟩, c9_new_grid_all_dead 3 3 4 (1 / 2) (le_refl 3) (le_refl 3)⟩

/-- C10: a committed spread, that is a completed make_child call, sets
liveness at the target, changes no liveness or color entry at any other
coordinate, and leaves width, height, colorshift and spread_chance
unchanged. -/
theorem c10_make_child_frame (g g2 : Grid) (y x new_y new_x : Nat) (rng rng2 : Rng)
    (h : g.make_child y x new_y new_x rng = some (g2, rng2)) :
    g2.alive_states new_y new_x = true ∧
    (∀ j i, ¬(j = new_y ∧ i = new_x) →
      g2.alive_states j i = g.alive_states j i ∧
      g2.color_states j i = g.color_states j i) ∧
    g2.width = g.width ∧ g2.height = g.height ∧
    g2.colorshift = g.colorshift ∧ g2.spread_chance = g.spread_chance := by
  rw [make_child_eq] at h
  cases hsc : (g.get_color y x).shift_color g.colorshift rng with
  | none => simp [hsc] at h
  | some s =>
    simp only [hsc, Option.map_some', Option.some.injEq, Prod.mk.injEq] at h
    obtain ⟨hg, -⟩ := h
    subst hg
    refine ⟨by simp [update2], ?_, rfl, rfl, rfl, rfl⟩
    intro j i hne
    constructor <;> simp [update2, hne]

/-- Witness for C10: a concrete committed spread of gridW from (1, 1) to
(0, 0) under rngZero. -/
theorem c10_witness :
    gridW.make_child 1 1 0 0 rngZero =
        some (gridW_child, { rngZero with intPos := 3, boolPos := 3 }) ∧
      gridW_child.alive_states 0 0 = true :=
  ⟨rfl, (c10_make_child_frame gridW gridW_child 1 1 0 0 rngZero
    { rngZero with intPos := 3, boolPos := 3 } rfl).1⟩

-- ===== Chance-zero helpers and the termination-test claims =====

lemma floatVal_nonneg (rng : Rng) : 0 ≤ floatVal rng := by
  unfold floatVal
  split
  · next h => exact h.1
  · exact le_refl 0

lemma floatVal_lt_one (rng : Rng) : floatVal rng < 1 := by
  unfold floatVal
  split
  · next h => exact h.2
  · norm_num

lemma spread_chance_zero_spread (g : Grid) (y x : Nat) (rng : Rng)
    (h0 : g.spread_chance = 0) :
    ∃ rng', g.spread_to_random_dead_nbor y x rng = some (g, rng') := by
  unfold Grid.spread_to_random_dead_nbor
  cases hch : chooseFromList (g.dead_nbors y x) rng with
  | mk cho rng1 =>
    cases cho with
    | none => exact ⟨rng1, rfl⟩
    | some nbor =>
      refine ⟨(genFloat01 rng1).2, ?_⟩
      have hnot : ¬ (genFloat01 rng1).1 < g.spread_chance := by
        rw [h0]
        exact not_lt.mpr (floatVal_nonneg rng1)
      simp only [genFloat01] at hnot ⊢
      rw [if_neg hnot]

lemma sweep_chance_zero (pairs : List (Nat × Nat)) (g : Grid)
    (h0 : g.spread_chance = 0) :
    ∀ (rng : Rng) (seen : Bool), ∃ rng' seen',
      pairs.foldlM (fun s q => sweepStep s.1 s.2.1 s.2.2 q) (g, rng, seen) =
        some (g, rng', seen') ∧
      (seen = true → seen' = true) ∧
      ((∃ p ∈ pairs, g.alive_states p.1 p.2 = false) → seen' = true) := by
  induction pairs with
  | nil =>
    intro rng seen
    refine ⟨rng, seen, rfl, fun h => h, ?_⟩
    rintro ⟨p, hp, -⟩
    exact absurd hp (List.not_mem_nil p)
  | cons q qs ih =>
    intro rng seen
    by_cases hq : g.alive_states q.1 q.2 = true
    · obtain ⟨rng1, hsp⟩ := spread_chance_zero_spread g q.1 q.2 rng h0
      obtain ⟨rng', seen', hfold, hmono, hforce⟩ := ih rng1 seen
      refine ⟨rng', seen', ?_, hmono, ?_⟩
      · simp only [List.foldlM_cons, sweepStep, hq, if_true, hsp, Option.bind_eq_bind,
          Option.some_bind]
        exact hfold
      · rintro ⟨p, hp, hpd⟩
        rcases List.mem_cons.mp hp with rfl | hps
        · rw [hq] at hpd; cases hpd
        · exact hforce ⟨p, hps, hpd⟩
    · have hq' : g.alive_states q.1 q.2 = false := by
        cases hqv : g.alive_states q.1 q.2
        · rfl
        · exact absurd hqv hq
      obtain ⟨rng', seen', hfold, hmono, hforce⟩ := ih rng true
      refine ⟨rng', seen', ?_, fun _ => hmono rfl, fun _ => hmono rfl⟩
      simp only [List.foldlM_cons, sweepStep, hq', if_false, Option.bind_eq_bind,
        Option.some_bind, Bool.false_eq_true]
      exact hfold

lemma chance_zero_running (pairs : List (Nat × Nat)) (g : Grid)
    (h0 : g.spread_chance = 0)
    (hdead : ∃ p ∈ pairs, g.alive_states p.1 p.2 = false) :
    ∀ (n : Nat) (rng : Rng), ∃ rng',
      simulation_in_background pairs n g rng = RunResult.running g rng' := by
  intro n
  induction n with
  | zero => intro rng; exact ⟨rng, rfl⟩
  | succ n ih =>
    intro rng
    obtain ⟨rng1, seen', hsw, -, hforce⟩ := sweep_chance_zero pairs g h0 rng false
    have hseen : seen' = true := hforce hdead
    subst hseen
    obtain ⟨rng', hrec⟩ := ih rng1
    refine ⟨rng', ?_⟩
    show (match sweep pairs g rng with
      | none => RunResult.panicked
      | some (g, rng, seen) =>
        if seen then simulation_in_background pairs n g rng else RunResult.done g rng) =
      RunResult.running g rng'
    rw [show sweep pairs g rng = some (g, rng1, true) from hsw]
    simpa using hrec

/-- C1: the claim states the driver performs another sweep exactly when the
previous sweep committed at least one spread. On the code this fails: the
loop tests seen_dead_cell instead. On a 4-by-4 grid with spread chance 0
and one seeded cell, the first sweep commits zero spreads (the grid comes
back unchanged) yet the flag is set, so the driver sweeps again, and in
fact never terminates. -/
theorem c1_termination_test_is_seen_dead_cell :
    (∃ rng', sweep (yxCoordinatePairs 4 4) gridSeeded0 rngZero =
        some (gridSeeded0, rng', true)) ∧
    ∀ n : Nat,
      (simulation_in_background (yxCoordinatePairs 4 4) n gridSeeded0 rngZero).isDone =
        false := by
  constructor
  · exact ⟨{ rngZero with intPos := 1, floatPos := 1 }, by rfl⟩
  · intro n
    obtain ⟨rng', h⟩ := chance_zero_running (yxCoordinatePairs 4 4) gridSeeded0 rfl
      ⟨(1, 2), by decide, rfl⟩ n rngZero
    rw [h]
    rfl

/-- C4: with spread chance 0, the grid after any number of sweeps is the
grid immediately after seeding, unchanged. The second half of the claim
fails on the code: the driver does not terminate on the first sweep; as
long as a dead interior cell exists it never terminates at all, because the
loop tests seen_dead_cell rather than committed spreads. -/
theorem c4_chance_zero_grid_frozen_loop_forever (pairs : List (Nat × Nat)) (g : Grid)
    (h0 : g.spread_chance = 0)
    (hdead : ∃ p ∈ pairs, g.alive_states p.1 p.2 = false) :
    ∀ (n : Nat) (rng : Rng), ∃ rng',
      simulation_in_background pairs n g rng = RunResult.running g rng' :=
  chance_zero_running pairs g h0 hdead

/-- Witness for C4: the seeded 4-by-4 grid with spread chance 0, run for 5
sweeps, is still running with the grid unchanged. -/
theorem c4_witness :
    (gridSeeded0.spread_chance = 0 ∧
      ∃ p ∈ yxCoordinatePairs 4 4, gridSeeded0.alive_states p.1 p.2 = false) ∧
    ∃ rng', simulation_in_background (yxCoordinatePairs 4 4) 5 gridSeeded0 rngZero =
      RunResult.running gridSeeded0 rng' :=
  ⟨⟨rfl, ⟨(1, 2), by decide, rfl⟩⟩,
    c4_chance_zero_grid_frozen_loop_forever (yxCoordinatePairs 4 4) gridSeeded0 rfl
      ⟨(1, 2), by decide, rfl⟩ 5 rngZero⟩

/-- C8: when the dead-neighbor candidate list is nonempty and the
probability check rejects, the call still consumed both the draw selecting
the attempted direction (the integer stream advanced) and the probability
draw (the float stream advanced), returning the grid unchanged: the target
is selected before the probability value is drawn and compared. -/
theorem c8_neighbor_selected_before_probability_draw (g : Grid) (y x : Nat) (rng : Rng)
    (hne : g.dead_nbors y x ≠ [])
    (hrej : ¬ floatVal rng < g.spread_chance) :
    g.spread_to_random_dead_nbor y x rng =
      some (g, { rng with intPos := rng.intPos + 1, floatPos := rng.floatPos + 1 }) := by
  have hlen : 0 < (g.dead_nbors y x).length := List.length_pos.mpr hne
  have hidx : rng.ints rng.intPos % (g.dead_nbors y x).length < (g.dead_nbors y x).length :=
    Nat.mod_lt _ hlen
  have hemp : (g.dead_nbors y x).isEmpty = false := by
    rw [List.isEmpty_eq_false]
    exact hne
  unfold Grid.spread_to_random_dead_nbor chooseFromList
  rw [hemp]
  simp only [Bool.false_eq_true, if_false, List.getElem?_eq_getElem hidx]
  have hval : floatVal { rng with intPos := rng.intPos + 1 } = floatVal rng := rfl
  simp only [genFloat01, hval]
  rw [if_neg hrej]

/-- Witness for C8: the fresh 4-by-4 grid at (1, 1) under the rejecting rng
whose float draws are all 9/10, above the spread chance 1/2. -/
theorem c8_witness :
    (gridW.dead_nbors 1 1 ≠ [] ∧ ¬ floatVal rngRej < gridW.spread_chance) ∧
    gridW.spread_to_random_dead_nbor 1 1 rngRej =
      some (gridW, { rngRej with intPos := 1, floatPos := 1 }) :=
  ⟨⟨by decide, by decide⟩,
    c8_neighbor_selected_before_probability_draw gridW 1 1 rngRej (by decide) (by decide)⟩

-- ===== C3: border cells =====

lemma genRangeNat_some (lo hi : Nat) (rng : Rng) (h : lo < hi) :
    genRangeNat lo hi rng =
      some (lo + rng.ints rng.intPos % (hi - lo), { rng with intPos := rng.intPos + 1 }) := by
  unfold genRangeNat
  rw [if_pos h]

/-- Counterexample to C3: on a 3-by-3 grid with spread chance 1, after
seeding the only interior cell (1, 1) by an orphan spawn, a single spread
attempt at the interior coordinate (1, 1) commits a spread to (0, 0), a
cell on the outermost ring, whose liveness becomes true. -/
theorem c3_counterexample :
    ((Grid.new 3 3 4 1).spawn_orphan_at_random_position rngZero).bind
      (fun s => (s.1.spread_to_random_dead_nbor 1 1 s.2).map
        (fun t => t.1.alive_states 0 0)) = some true := by
  rfl

/-- C3 amended: border cells are dead at construction, an orphan spawn
never modifies a border coordinate, and the sweep order only contains
interior coordinates, so the spreading rule is only ever invoked at
interior cells; the spreading rule itself, however, can select a border
coordinate as its target, so border cells can become alive. -/
theorem c3_amended_border_untouched_except_spread (w h : Nat) (hw : 3 ≤ w) (hh : 3 ≤ h) :
    (∀ (cs : Nat) (sc : Rat) (y x : Nat), (Grid.new w h cs sc).alive_states y x = false) ∧
    (∀ (g g' : Grid) (rng rng' : Rng), g.width = w → g.height = h →
      g.spawn_orphan_at_random_position rng = some (g', rng') →
      ∀ y x, (y = 0 ∨ y = h - 1 ∨ x = 0 ∨ x = w - 1) →
        g'.alive_states y x = g.alive_states y x ∧
        g'.color_states y x = g.color_states y x) ∧
    (∀ p ∈ yxCoordinatePairs w h, isInterior w h p) := by
  refine ⟨fun _ _ _ _ => rfl, ?_, ?_⟩
  · intro g g' rng rng' hgw hgh hsp y x hborder
    rw [spawn_eq] at hsp
    have hxlt : 1 < g.width - 1 := by omega
    have hylt : 1 < g.height - 1 := by omega
    rw [genRangeNat_some 1 (g.width - 1) rng hxlt] at hsp
    set rng1 : Rng := { rng with intPos := rng.intPos + 1 } with hrng1
    rw [Option.some_bind, genRangeNat_some 1 (g.height - 1) rng1 hylt] at hsp
    set xv : Nat := 1 + rng.ints rng.intPos % (g.width - 1 - 1) with hxv
    set yv : Nat := 1 + rng1.ints rng1.intPos % (g.height - 1 - 1) with hyv
    simp only [Option.map_some', Option.some.injEq, Prod.mk.injEq] at hsp
    obtain ⟨hg, -⟩ := hsp
    subst hg
    have hxb : 1 ≤ xv ∧ xv ≤ g.width - 2 := by
      constructor
      · omega
      · have := Nat.mod_lt (rng.ints rng.intPos) (show 0 < g.width - 1 - 1 by omega)
        omega
    have hyb : 1 ≤ yv ∧ yv ≤ g.height - 2 := by
      constructor
      · omega
      · have := Nat.mod_lt (rng1.ints rng1.intPos) (show 0 < g.height - 1 - 1 by omega)
        omega
    have hne : ¬ (y = yv ∧ x = xv) := by
      rintro ⟨rfl, rfl⟩
      omega
    constructor <;> simp [update2, hne]
  · intro p hp
    unfold yxCoordinatePairs at hp
    rw [List.mem_flatMap] at hp
    obtain ⟨y, hy, hp⟩ := hp
    rw [List.mem_map] at hp
    obtain ⟨x, hx, rfl⟩ := hp
    rw [List.mem_range'_1] at hy hx
    exact ⟨by omega, by omega, by omega, by omega⟩

/-- Witness for C3 amended at the dimensions 3 by 3. -/
theorem c3_amended_witness :
    ((3 ≤ 3 ∧ 3 ≤ 3) ∧
      (∀ (cs : Nat) (sc : Rat) (y x : Nat), (Grid.new 3 3 cs sc).alive_states y x = false) ∧
      (∀ (g g' : Grid) (rng rng' : Rng), g.width = 3 → g.height = 3 →
        g.spawn_orphan_at_random_position rng = some (g', rng') →
        ∀ y x, (y = 0 ∨ y = 3 - 1 ∨ x = 0 ∨ x = 3 - 1) →
          g'.alive_states y x = g.alive_states y x ∧
          g'.color_states y x = g.color_states y x) ∧
      (∀ p ∈ yxCoordinatePairs 3 3, isInterior 3 3 p)) :=
  ⟨⟨le_refl 3, le_refl 3⟩,
    c3_amended_border_untouched_except_spread 3 3 (le_refl 3) (le_refl 3)⟩

-- ===== C5: counting and coordinate lemmas =====

lemma countP_le_of_impl {α : Type} (p q : α → Bool) :
    ∀ l : List α, (∀ a ∈ l, p a = true → q a = true) → l.countP p ≤ l.countP q := by
  intro l
  induction l with
  | nil => intro _; simp
  | cons b l ih =>
    intro h
    rw [List.countP_cons, List.countP_cons]
    have hl := ih (fun c hc => h c (List.mem_cons_of_mem b hc))
    by_cases hp : p b = true
    · have hq := h b (List.mem_cons_self b l) hp
      simp only [hp, hq, if_true]
      omega
    · have hp' : p b = false := by simpa using hp
      simp only [hp', Bool.false_eq_true, if_false]
      split <;> omega

lemma countP_lt_of_witness {α : Type} (p q : α → Bool) :
    ∀ l : List α, (∀ a ∈ l, p a = true → q a = true) →
      ∀ a ∈ l, p a = false → q a = true → l.countP p < l.countP q := by
  intro l
  induction l with
  | nil => intro _ a ha; cases ha
  | cons b l ih =>
    intro h a ha hp hq
    rw [List.countP_cons, List.countP_cons]
    rcases List.mem_cons.mp ha with rfl | ha'
    · have hle := countP_le_of_impl p q l (fun c hc => h c (List.mem_cons_of_mem a hc))
      simp only [hp, hq, Bool.false_eq_true, if_false, if_true]
      omega
    · have hlt := ih (fun c hc => h c (List.mem_cons_of_mem b hc)) a ha' hp hq
      by_cases hpb : p b = true
      · have hqb := h b (List.mem_cons_self b l) hpb
        simp only [hpb, hqb, if_true]
        omega
      · have hpb' : p b = false := by simpa using hpb
        simp only [hpb', Bool.false_eq_true, if_false]
        split <;> omega

lemma mem_allCoords (w h : Nat) (p : Nat × Nat) :
    p ∈ allCoords w h ↔ p.1 < h ∧ p.2 < w := by
  unfold allCoords
  rw [List.mem_flatMap]
  constructor
  · rintro ⟨y, hy, hp⟩
    rw [List.mem_map] at hp
    obtain ⟨x, hx, rfl⟩ := hp
    rw [List.mem_range] at hy hx
    exact ⟨hy, hx⟩
  · rintro ⟨h1, h2⟩
    exact ⟨p.1, List.mem_range.mpr h1,
      List.mem_map.mpr ⟨p.2, List.mem_range.mpr h2, by simp⟩⟩

lemma length_allCoords (w h : Nat) : (allCoords w h).length = h * w := by
  unfold allCoords
  rw [List.length_flatMap]
  simp only [Function.comp_def, List.length_map, List.length_range]
  rw [List.map_const', List.sum_replicate, List.length_range, smul_eq_mul]

lemma aliveCount_le (w h : Nat) {g g' : Grid} (hle : g.aliveLe g') :
    aliveCount w h g ≤ aliveCount w h g' :=
  countP_le_of_impl _ _ (allCoords w h) (fun p _ hp => hle p.1 p.2 hp)

lemma aliveCount_lt (w h : Nat) {g g' : Grid} (hle : g.aliveLe g')
    (t : Nat × Nat) (ht1 : t.1 < h) (ht2 : t.2 < w)
    (hdead : g.alive_states t.1 t.2 = false) (halive : g'.alive_states t.1 t.2 = true) :
    aliveCount w h g < aliveCount w h g' :=
  countP_lt_of_witness _ _ (allCoords w h) (fun p _ hp => hle p.1 p.2 hp)
    t ((mem_allCoords w h t).mpr ⟨ht1, ht2⟩) hdead halive

lemma aliveCount_lt_total (w h : Nat) (g : Grid) (t : Nat × Nat)
    (ht1 : t.1 < h) (ht2 : t.2 < w) (hdead : g.alive_states t.1 t.2 = false) :
    aliveCount w h g < h * w := by
  have := countP_lt_of_witness (fun p => g.alive_states p.1 p.2) (fun _ => true)
    (allCoords w h) (fun _ _ _ => rfl) t ((mem_allCoords w h t).mpr ⟨ht1, ht2⟩) hdead rfl
  calc aliveCount w h g < (allCoords w h).countP (fun _ => true) := this
    _ = (allCoords w h).length := by
        rw [List.countP_true]
    _ = h * w := length_allCoords w h

lemma aliveCount_pos (w h : Nat) (g : Grid) (a : Nat × Nat)
    (ha1 : a.1 < h) (ha2 : a.2 < w) (halive : g.alive_states a.1 a.2 = true) :
    0 < aliveCount w h g :=
  List.countP_pos_iff.mpr ⟨a, (mem_allCoords w h a).mpr ⟨ha1, ha2⟩, halive⟩

lemma mem_yxCoordinatePairs (w h : Nat) (p : Nat × Nat) :
    p ∈ yxCoordinatePairs w h ↔ isInterior w h p := by
  unfold yxCoordinatePairs isInterior
  rw [List.mem_flatMap]
  constructor
  · rintro ⟨y, hy, hp⟩
    rw [List.mem_map] at hp
    obtain ⟨x, hx, rfl⟩ := hp
    rw [List.mem_range'_1] at hy hx
    exact ⟨by omega, by omega, by omega, by omega⟩
  · rintro ⟨h1, h2, h3, h4⟩
    refine ⟨p.1, List.mem_range'_1.mpr ⟨h1, by omega⟩,
      List.mem_map.mpr ⟨p.2, List.mem_range'_1.mpr ⟨h3, by omega⟩, by simp⟩⟩

lemma chebDist_eq_zero_iff (p q : Nat × Nat) : chebDist p q = 0 ↔ p = q := by
  unfold chebDist natDist
  rw [Prod.ext_iff]
  omega

-- ===== C5: totality of a spread attempt when colorshift is positive =====

lemma shift_hue_some (hue shift : Nat) (rng : Rng) (h : 0 < shift) :
    ∃ v rng2, RgbColor.shift_hue hue shift rng = some (v, rng2) := by
  unfold RgbColor.shift_hue
  rw [genRangeNat_some 0 shift rng h]
  simp only [Option.bind_eq_bind, Option.some_bind, genBool]
  split
  · exact ⟨_, _, rfl⟩
  · exact ⟨_, _, rfl⟩

lemma shift_color_some (c : RgbColor) (shift : Nat) (rng : Rng) (h : 0 < shift) :
    ∃ c2 rng2, RgbColor.shift_color c shift rng = some (c2, rng2) := by
  obtain ⟨v1, r1, h1⟩ := shift_hue_some c.red shift rng h
  obtain ⟨v2, r2, h2⟩ := shift_hue_some c.green shift r1 h
  obtain ⟨v3, r3, h3⟩ := shift_hue_some c.blue shift r2 h
  refine ⟨{ red := v1, green := v2, blue := v3 }, r3, ?_⟩
  unfold RgbColor.shift_color
  rw [h1]
  simp only [Option.bind_eq_bind, Option.some_bind]
  rw [h2]
  simp only [Option.some_bind]
  rw [h3]
  simp only [Option.some_bind]
  rfl

lemma make_child_some (g : Grid) (y x ny nx : Nat) (rng : Rng) (h : 0 < g.colorshift) :
    ∃ g2 rng2, g.make_child y x ny nx rng = some (g2, rng2) ∧
      g2.alive_states = update2 g.alive_states ny nx true ∧
      g2.colorshift = g.colorshift ∧ g2.spread_chance = g.spread_chance := by
  obtain ⟨c2, r2, hsc⟩ := shift_color_some (g.get_color y x) g.colorshift rng h
  rw [make_child_eq, hsc]
  exact ⟨_, r2, rfl, rfl, rfl, rfl⟩

lemma spread_total (g : Grid) (y x : Nat) (rng : Rng) (hcs : 0 < g.colorshift) :
    ∃ g2 rng2, g.spread_to_random_dead_nbor y x rng = some (g2, rng2) ∧
      g.aliveLe g2 ∧
      g2.colorshift = g.colorshift ∧ g2.spread_chance = g.spread_chance ∧
      (1 ≤ g.spread_chance → g.dead_nbors y x ≠ [] →
        ∃ t ∈ g.dead_nbors y x, g2.alive_states t.1 t.2 = true) := by
  unfold Grid.spread_to_random_dead_nbor chooseFromList
  by_cases hemp : (g.dead_nbors y x).isEmpty
  · rw [if_pos hemp]
    refine ⟨g, rng, rfl, aliveLe_refl g, rfl, rfl, fun _ hne => ?_⟩
    exact absurd (List.isEmpty_iff.mp hemp) hne
  · rw [if_neg hemp]
    have hne : g.dead_nbors y x ≠ [] := by
      intro hnil
      exact hemp (by rw [hnil]; rfl)
    have hlen : 0 < (g.dead_nbors y x).length := List.length_pos.mpr hne
    have hidx : rng.ints rng.intPos % (g.dead_nbors y x).length <
        (g.dead_nbors y x).length := Nat.mod_lt _ hlen
    rw [List.getElem?_eq_getElem hidx]
    set nbor := (g.dead_nbors y x)[rng.ints rng.intPos % (g.dead_nbors y x).length] with hnbor
    have hmem : nbor ∈ g.dead_nbors y x := by
      rw [hnbor]
      exact List.getElem_mem hidx
    simp only [genFloat01]
    by_cases hlt : floatVal { rng with intPos := rng.intPos + 1 } < g.spread_chance
    · rw [if_pos hlt]
      obtain ⟨g2, rng2, hmc, halive, hcs2, hsc2⟩ :=
        make_child_some g y x nbor.1 nbor.2
          { rng with intPos := rng.intPos + 1, floatPos := rng.floatPos + 1 } hcs
      refine ⟨g2, rng2, hmc, ?_, hcs2, hsc2, fun _ _ => ⟨nbor, hmem, ?_⟩⟩
      · intro j i hj
        rw [halive]
        simp only [update2]
        split
        · rfl
        · exact hj
      · rw [halive]
        simp [update2]
    · rw [if_neg hlt]
      refine ⟨g, _, rfl, aliveLe_refl g, rfl, rfl, fun hch _ => ?_⟩
      exfalso
      exact hlt (lt_of_lt_of_le (floatVal_lt_one _) hch)

-- ===== C5: one sweep makes progress when the chance is at least 1 =====

lemma sweep_fold_facts (w h : Nat) :
    ∀ (pairs : List (Nat × Nat)) (g : Grid) (rng : Rng) (seen : Bool),
      (∀ p ∈ pairs, isInterior w h p) → 0 < g.colorshift →
      ∃ g' rng' seen',
        pairs.foldlM (fun s q => sweepStep s.1 s.2.1 s.2.2 q) (g, rng, seen) =
          some (g', rng', seen') ∧
        g.aliveLe g' ∧
        g'.colorshift = g.colorshift ∧ g'.spread_chance = g.spread_chance ∧
        (seen' = true → seen = true ∨ ∃ p ∈ pairs, g.alive_states p.1 p.2 = false) ∧
        (1 ≤ g.spread_chance →
          ∀ c ∈ pairs, g.alive_states c.1 c.2 = true → g.dead_nbors c.1 c.2 ≠ [] →
            ∃ t : Nat × Nat, t.1 < h ∧ t.2 < w ∧ g.alive_states t.1 t.2 = false ∧
              g'.alive_states t.1 t.2 = true) := by
  intro pairs
  induction pairs with
  | nil =>
    intro g rng seen _ _
    refine ⟨g, rng, seen, rfl, aliveLe_refl g, rfl, rfl, fun hs => Or.inl hs, ?_⟩
    intro _ c hc
    exact absurd hc (List.not_mem_nil c)
  | cons q qs ih =>
    intro g rng seen hpairs hcs
    have hqint : isInterior w h q := hpairs q (List.mem_cons_self q qs)
    have hqs : ∀ p ∈ qs, isInterior w h p :=
      fun p hp => hpairs p (List.mem_cons_of_mem q hp)
    by_cases hq : g.alive_states q.1 q.2 = true
    · -- alive cell: one spread attempt, then the rest of the sweep
      obtain ⟨g2, rng2, hspr, hle2, hcs2, hch2, hcommit⟩ :=
        spread_total g q.1 q.2 rng hcs
      obtain ⟨g', rng', seen', hfold, hle', hcs', hch', hseen', hprog'⟩ :=
        ih g2 rng2 seen hqs (by rw [hcs2]; exact hcs)
      refine ⟨g', rng', seen', ?_, aliveLe_trans hle2 hle', by rw [hcs', hcs2],
        by rw [hch', hch2], ?_, ?_⟩
      · simp only [List.foldlM_cons, sweepStep, hq, if_true, hspr,
          Option.bind_eq_bind, Option.some_bind]
        exact hfold
      · intro hs
        rcases hseen' hs with hs' | ⟨p, hp, hpd⟩
        · exact Or.inl hs'
        · refine Or.inr ⟨p, List.mem_cons_of_mem q hp, ?_⟩
          cases hgp : g.alive_states p.1 p.2
          · rfl
          · rw [hle2 p.1 p.2 hgp] at hpd
            cases hpd
      · intro hch c hc hcaliv hcnbors
        rcases List.mem_cons.mp hc with rfl | hc'
        · -- the spread at c itself commits
          obtain ⟨t, htmem, htaliv⟩ := hcommit hch hcnbors
          have htdead : g.alive_states t.1 t.2 = false := by
            have := List.of_mem_filter htmem
            simpa using this
          have htmoore : t ∈ mooreNbors c.1 c.2 := List.mem_of_mem_filter htmem
          have htb : t.1 < h ∧ t.2 < w := by
            obtain ⟨hi1, hi2, hi3, hi4⟩ := hqint
            simp only [mooreNbors, List.mem_cons, List.not_mem_nil, or_false] at htmoore
            rcases htmoore with ht | ht | ht | ht | ht | ht | ht | ht <;>
              (rw [ht]; constructor <;> simp <;> omega)
          exact ⟨t, htb.1, htb.2, htdead, hle' t.1 t.2 htaliv⟩
        · -- the later cell c was already alive with a dead neighbor in g
          by_cases hc2aliv : ∃ t : Nat × Nat, t.1 < h ∧ t.2 < w ∧
              g.alive_states t.1 t.2 = false ∧ g2.alive_states t.1 t.2 = true
          · obtain ⟨t, ht1, ht2, htd, hta⟩ := hc2aliv
            exact ⟨t, ht1, ht2, htd, hle' t.1 t.2 hta⟩
          · -- no cell changed in the first step, so g2 and g agree where needed
            have hnb2 : g2.dead_nbors c.1 c.2 ≠ [] := by
              intro hnil
              apply hcnbors
              rw [Grid.dead_nbors, List.filter_eq_nil_iff] at hnil ⊢
              intro t htm
              have h2t : g2.alive_states t.1 t.2 = true := by
                have := hnil t htm
                simpa using this
              simp only [Bool.not_eq_true, Bool.not_eq_false]
              cases hgt : g.alive_states t.1 t.2
              · exfalso
                have hcint := hpairs c hc
                have htb : t.1 < h ∧ t.2 < w := by
                  obtain ⟨hi1, hi2, hi3, hi4⟩ := hcint
                  simp only [mooreNbors, List.mem_cons, List.not_mem_nil,
                    or_false] at htm
                  rcases htm with ht | ht | ht | ht | ht | ht | ht | ht <;>
                    (rw [ht]; constructor <;> simp <;> omega)
                exact hc2aliv ⟨t, htb.1, htb.2, hgt, h2t⟩
              · rfl
            obtain ⟨t, ht1, ht2, htd, hta⟩ := hprog' (by rw [hch2]; exact hch) c hc'
              (hle2 c.1 c.2 hcaliv) hnb2
            have htdg : g.alive_states t.1 t.2 = false := by
              cases hgt : g.alive_states t.1 t.2
              · rfl
              · rw [hle2 t.1 t.2 hgt] at htd
                cases htd
            exact ⟨t, ht1, ht2, htdg, hta⟩
    · -- dead cell: the flag is set and the grid is untouched
      have hq' : g.alive_states q.1 q.2 = false := by
        cases hqv : g.alive_states q.1 q.2
        · rfl
        · exact absurd hqv hq
      obtain ⟨g', rng', seen', hfold, hle', hcs', hch', hseen', hprog'⟩ :=
        ih g rng true hqs hcs
      refine ⟨g', rng', seen', ?_, hle', hcs', hch',
        fun _ => Or.inr ⟨q, List.mem_cons_self q qs, hq'⟩, ?_⟩
      · simp only [List.foldlM_cons, sweepStep, hq', Bool.false_eq_true, if_false]
        exact hfold
      · intro hch c hc hcaliv hcnbors
        rcases List.mem_cons.mp hc with rfl | hc'
        · rw [hcaliv] at hq'
          cases hq'
        · exact hprog' hch c hc' hcaliv hcnbors

-- ===== C5: an alive interior cell with a dead neighbor exists =====

lemma stepToward_spec (u v : Nat) :
    (stepToward u v = u - 1 ∧ v < u) ∨ (stepToward u v = u ∧ u = v) ∨
      (stepToward u v = u + 1 ∧ u < v) := by
  unfold stepToward
  split
  · next h1 => right; right; exact ⟨rfl, h1⟩
  · next h1 =>
    split
    · next h2 => left; exact ⟨rfl, h2⟩
    · next h2 => right; left; exact ⟨rfl, by omega⟩

lemma exists_alive_with_dead_nbor (w h : Nat) :
    ∀ (n : Nat) (g : Grid) (a d : Nat × Nat),
      isInterior w h a → isInterior w h d →
      g.alive_states a.1 a.2 = true → g.alive_states d.1 d.2 = false →
      chebDist a d ≤ n →
      ∃ c : Nat × Nat, isInterior w h c ∧ g.alive_states c.1 c.2 = true ∧
        g.dead_nbors c.1 c.2 ≠ [] := by
  intro n
  induction n with
  | zero =>
    intro g a d _ _ haliv hdead hdist
    have had : a = d := (chebDist_eq_zero_iff a d).mp (Nat.le_zero.mp hdist)
    rw [had, hdead] at haliv
    cases haliv
  | succ n ih =>
    intro g a d ha hd haliv hdead hdist
    by_cases heq : a = d
    · rw [heq, hdead] at haliv
      cases haliv
    · obtain ⟨hsm, hsi1, hsi2, hsi3, hsi4, hsdist⟩ :
          (stepToward a.1 d.1, stepToward a.2 d.2) ∈ mooreNbors a.1 a.2 ∧
          1 ≤ stepToward a.1 d.1 ∧ stepToward a.1 d.1 ≤ h - 2 ∧
          1 ≤ stepToward a.2 d.2 ∧ stepToward a.2 d.2 ≤ w - 2 ∧
          chebDist (stepToward a.1 d.1, stepToward a.2 d.2) d ≤ n := by
        obtain ⟨ha1, ha2, ha3, ha4⟩ := ha
        obtain ⟨hd1, hd2, hd3, hd4⟩ := hd
        have hane : ¬ (a.1 = d.1 ∧ a.2 = d.2) := fun hcon => heq (Prod.ext hcon.1 hcon.2)
        unfold chebDist natDist at hdist
        rcases stepToward_spec a.1 d.1 with ⟨e1, c1⟩ | ⟨e1, c1⟩ | ⟨e1, c1⟩ <;>
          rcases stepToward_spec a.2 d.2 with ⟨e2, c2⟩ | ⟨e2, c2⟩ | ⟨e2, c2⟩ <;>
          rw [e1, e2] <;>
          refine ⟨?_, by omega, by omega, by omega, by omega,
            by simp only [chebDist, natDist]; omega⟩ <;>
          (simp [mooreNbors, Prod.ext_iff]; try omega)
      by_cases hsaliv :
          g.alive_states (stepToward a.1 d.1) (stepToward a.2 d.2) = true
      · exact ih g (stepToward a.1 d.1, stepToward a.2 d.2) d
          ⟨hsi1, hsi2, hsi3, hsi4⟩ hd hsaliv hdead hsdist
      · have hsdead :
            g.alive_states (stepToward a.1 d.1) (stepToward a.2 d.2) = false := by
          cases hv : g.alive_states (stepToward a.1 d.1) (stepToward a.2 d.2)
          · rfl
          · exact absurd hv hsaliv
        refine ⟨a, ha, haliv, ?_⟩
        intro hnil
        rw [Grid.dead_nbors, List.filter_eq_nil_iff] at hnil
        have := hnil (stepToward a.1 d.1, stepToward a.2 d.2) hsm
        simp [hsdead] at this

-- ===== C5: the loop terminates when every probability check passes =====

lemma chance_one_isDone (w h : Nat) :
    ∀ (k : Nat) (g : Grid) (rng : Rng) (fuel : Nat),
      1 ≤ g.spread_chance → 0 < g.colorshift →
      (∃ a : Nat × Nat, isInterior w h a ∧ g.alive_states a.1 a.2 = true) →
      w * h ≤ aliveCount w h g + k → k < fuel →
      (simulation_in_background (yxCoordinatePairs w h) fuel g rng).isDone = true := by
  intro k
  induction k with
  | zero =>
    intro g rng fuel hch hcs halive hcount hfuel
    obtain ⟨f, rfl⟩ : ∃ f, fuel = f + 1 := ⟨fuel - 1, by omega⟩
    obtain ⟨g', rng', seen', hfold, hle, hcs', hch', hseen', hprog⟩ :=
      sweep_fold_facts w h (yxCoordinatePairs w h) g rng false
        (fun p hp => (mem_yxCoordinatePairs w h p).mp hp) hcs
    have hsweq : sweep (yxCoordinatePairs w h) g rng = some (g', rng', seen') := hfold
    cases seen' with
    | false =>
      show (match sweep (yxCoordinatePairs w h) g rng with
        | none => RunResult.panicked
        | some (g, rng, seen) =>
          if seen then simulation_in_background (yxCoordinatePairs w h) f g rng
          else RunResult.done g rng).isDone = true
      rw [hsweq]
      rfl
    | true =>
      exfalso
      have hdead' : ∃ p ∈ yxCoordinatePairs w h, g.alive_states p.1 p.2 = false := by
        rcases hseen' rfl with hfalse | hp
        · cases hfalse
        · exact hp
      obtain ⟨p, hpmem, hpdead⟩ := hdead'
      have hpint : isInterior w h p := (mem_yxCoordinatePairs w h p).mp hpmem
      have hplt : aliveCount w h g < h * w := by
        obtain ⟨h1, h2, h3, h4⟩ := hpint
        exact aliveCount_lt_total w h g p (by omega) (by omega) hpdead
      have hmul : w * h = h * w := Nat.mul_comm w h
      omega
  | succ k ih =>
    intro g rng fuel hch hcs halive hcount hfuel
    obtain ⟨f, rfl⟩ : ∃ f, fuel = f + 1 := ⟨fuel - 1, by omega⟩
    obtain ⟨g', rng', seen', hfold, hle, hcs', hch', hseen', hprog⟩ :=
      sweep_fold_facts w h (yxCoordinatePairs w h) g rng false
        (fun p hp => (mem_yxCoordinatePairs w h p).mp hp) hcs
    have hsweq : sweep (yxCoordinatePairs w h) g rng = some (g', rng', seen') := hfold
    cases seen' with
    | false =>
      show (match sweep (yxCoordinatePairs w h) g rng with
        | none => RunResult.panicked
        | some (g, rng, seen) =>
          if seen then simulation_in_background (yxCoordinatePairs w h) f g rng
          else RunResult.done g rng).isDone = true
      rw [hsweq]
      rfl
    | true =>
      have hdead' : ∃ p ∈ yxCoordinatePairs w h, g.alive_states p.1 p.2 = false := by
        rcases hseen' rfl with hfalse | hp
        · cases hfalse
        · exact hp
      obtain ⟨p, hpmem, hpdead⟩ := hdead'
      have hpint : isInterior w h p := (mem_yxCoordinatePairs w h p).mp hpmem
      obtain ⟨a, hai, haliv⟩ := halive
      obtain ⟨c, hcint, hcaliv, hcnbors⟩ :=
        exists_alive_with_dead_nbor w h (chebDist a p) g a p hai hpint haliv hpdead
          (le_refl _)
      obtain ⟨t, ht1, ht2, htdead, htaliv⟩ :=
        hprog hch c ((mem_yxCoordinatePairs w h c).mpr hcint) hcaliv hcnbors
      have hlt : aliveCount w h g < aliveCount w h g' :=
        aliveCount_lt w h hle t ht1 ht2 htdead htaliv
      have hstep : simulation_in_background (yxCoordinatePairs w h) (f + 1) g rng =
          simulation_in_background (yxCoordinatePairs w h) f g' rng' := by
        show (match sweep (yxCoordinatePairs w h) g rng with
          | none => RunResult.panicked
          | some (g, rng, seen) =>
            if seen then simulation_in_background (yxCoordinatePairs w h) f g rng
            else RunResult.done g rng) = _
        rw [hsweq]
        simp
      rw [hstep]
      apply ih g' rng' f
      · rw [hch']; exact hch
      · rw [hcs']; exact hcs
      · exact ⟨a, hai, hle a.1 a.2 haliv⟩
      · omega
      · omega

/-- Counterexample to C5: on the seeded 4-by-4 grid with spread chance
1/2 > 0, the claimed bound is (4-2)*(4-2) = 4 sweeps, but under the random
source whose probability draws are all 9/10 every check rejects, and after
4 sweeps the loop has not terminated. -/
theorem c5_counterexample :
    0 < gridC5.spread_chance ∧
    (simulation_in_background (yxCoordinatePairs 4 4) ((4 - 2) * (4 - 2)) gridC5
      rngRej).isDone = false := by
  exact ⟨by decide, by decide⟩

/-- C5 amended: termination within a sweep-count bound cannot hold for all
random sources when the spread chance is below 1; when every probability
check passes (spread chance at least 1), a positive colorshift and at least
one live interior cell guarantee that the driver terminates within
width * height sweeps. -/
theorem c5_amended_chance_one_terminates (w h fuel : Nat) (g : Grid) (rng : Rng)
    (hch : 1 ≤ g.spread_chance) (hcs : 0 < g.colorshift)
    (halive : ∃ a : Nat × Nat, isInterior w h a ∧ g.alive_states a.1 a.2 = true)
    (hfuel : w * h ≤ fuel) :
    (simulation_in_background (yxCoordinatePairs w h) fuel g rng).isDone = true := by
  obtain ⟨a, hai, haliv⟩ := halive
  have hpos : 0 < aliveCount w h g := by
    obtain ⟨h1, h2, h3, h4⟩ := hai
    exact aliveCount_pos w h g a (by omega) (by omega) haliv
  have hbound : aliveCount w h g ≤ h * w := by
    rw [← length_allCoords]
    exact List.countP_le_length _
  have hmul : w * h = h * w := Nat.mul_comm w h
  exact chance_one_isDone w h (w * h - aliveCount w h g) g rng fuel hch hcs
    ⟨a, hai, haliv⟩ (by omega) (by omega)

/-- Witness for the amended C5: the seeded 3-by-3 grid with spread chance 1
terminates within 9 sweeps. -/
theorem c5_amended_witness :
    ((1 ≤ gridC5W.spread_chance ∧ 0 < gridC5W.colorshift ∧
      (∃ a : Nat × Nat, isInterior 3 3 a ∧ gridC5W.alive_states a.1 a.2 = true) ∧
      3 * 3 ≤ 9) ∧
    (simulation_in_background (yxCoordinatePairs 3 3) 9 gridC5W rngZero).isDone = true) :=
  ⟨⟨by decide, by decide, ⟨(1, 1), by decide, rfl⟩, by decide⟩,
    c5_amended_chance_one_terminates 3 3 9 gridC5W rngZero (by decide) (by decide)
      ⟨(1, 1), by decide, rfl⟩ (by decide)⟩
